import Mathlib

/-
Verification of the pixel-scoring / segmentation pipeline (`spateo/preprocessing/segmentation/icell.py`)
and of the spatially-aware clustering pipeline (`spateo/tools/cluster/find_clusters.py`)
of the spateo repository, via a shallow embedding in Lean 4.

Numeric arrays are embedded as rational-valued dense images; the numeric estimation
kernels that live outside the excerpt (the modules `utils`, `moran`, `em`, `vi`, `bp`,
and the external libraries `skimage.filters`, `cv2`, `scipy`) are abstracted as
parameters of the embedding, because the claims under verification only depend on
control flow, dispatch, shape validation, stored-layer bookkeeping and pointwise
array combinators, all of which are embedded faithfully from the source.
-/

namespace Spateo

/-- A dense 2-D numeric array (numpy `ndarray` of floats, modelled with exact rationals).
`rows`/`cols` model `ndarray.shape`, `data` the flattened entries, `u8` whether the
dtype is `np.uint8` (the only dtype distinction the source ever branches on). -/
structure Img where
  rows : Nat
  cols : Nat
  data : List ℚ
  u8 : Bool
deriving DecidableEq

/-- A dense 2-D boolean array (numpy boolean mask). -/
structure BImg where
  rows : Nat
  cols : Nat
  data : List Bool
deriving DecidableEq

def Img.shape (x : Img) : Nat × Nat := (x.rows, x.cols)

def BImg.shape (x : BImg) : Nat × Nat := (x.rows, x.cols)

/-- Casting a numeric array to `bool` (numpy `astype(bool)`): nonzero entries become `true`. -/
def Img.toBMask (x : Img) : BImg :=
  ⟨x.rows, x.cols, x.data.map (fun q => decide (q ≠ 0))⟩

/-- Casting a boolean array to a numeric one (`True` to 1, `False` to 0). -/
def BImg.toImg (b : BImg) : Img :=
  ⟨b.rows, b.cols, b.data.map (fun v => if v then (1 : ℚ) else 0), false⟩

/-- Pixelwise `X > t`. -/
def Img.gtMask (x : Img) (t : ℚ) : BImg :=
  ⟨x.rows, x.cols, x.data.map (fun q => decide (t < q))⟩

/-- Pixelwise `X >= t` (used by `_mask_cells_from_stain`). -/
def Img.geMask (x : Img) (t : ℚ) : BImg :=
  ⟨x.rows, x.cols, x.data.map (fun q => decide (t ≤ q))⟩

/-- Pixelwise `X < t` (used by `_mask_nuclei_from_stain` for the background mask). -/
def Img.ltMask (x : Img) (t : ℚ) : BImg :=
  ⟨x.rows, x.cols, x.data.map (fun q => decide (q < t))⟩

/-- Pixelwise `X > 0` (the `bins > 0` mask passed to `moran.run_moran`). -/
def Img.posMask (x : Img) : BImg :=
  ⟨x.rows, x.cols, x.data.map (fun q => decide (0 < q))⟩

/-- Maximum entry of a list of rationals (numpy `arr.max()` over a nonempty array). -/
def listMax (l : List ℚ) : ℚ := l.foldl max (l.headD 0)

/-- Entry-wise division by the array maximum (the source line `res /= res.max()`). -/
def Img.divMax (x : Img) : Img :=
  ⟨x.rows, x.cols, x.data.map (fun q => q / listMax x.data), x.u8⟩

/-- Masked assignment `arr[mask] = v` (numpy fancy indexing with a boolean mask). -/
def Img.setWhere (x : Img) (m : BImg) (v : ℚ) : Img :=
  ⟨x.rows, x.cols, x.data.zipWith (fun q b => if b then v else q) m.data, x.u8⟩

def clip01 (q : ℚ) : ℚ := min 1 (max 0 q)

/-- The source line `np.clip(res + certain_mask, 0, 1)`: add the 0/1 mask, clip to `[0, 1]`. -/
def Img.clipAddMask (x : Img) (m : BImg) : Img :=
  ⟨x.rows, x.cols,
   x.data.zipWith (fun q b => clip01 (q + (if b then 1 else 0))) m.data, x.u8⟩

/-- Pixelwise disjunction of two boolean masks (numpy `mask += certain_mask` on bool arrays). -/
def BImg.or (x y : BImg) : BImg :=
  ⟨x.rows, x.cols, x.data.zipWith Bool.or y.data⟩

/-- Pixelwise conjunction of two boolean masks. -/
def BImg.and (x y : BImg) : BImg :=
  ⟨x.rows, x.cols, x.data.zipWith Bool.and y.data⟩

/-- Pixelwise negation of a boolean mask (numpy `~mask`). -/
def BImg.neg (x : BImg) : BImg :=
  ⟨x.rows, x.cols, x.data.map Bool.not⟩

/-- Pixelwise comparison `X > Y` of two numeric arrays. -/
def Img.gtImg (x y : Img) : BImg :=
  ⟨x.rows, x.cols, x.data.zipWith (fun a b => decide (b < a)) y.data⟩

/-- Python `str.lower()` restricted to what the source needs (character-wise lowering). -/
def pyLower (s : String) : String := String.mk (s.data.map Char.toLower)

def leadMatch : List Char → List Char → Bool
  | [], _ => true
  | _ :: _, [] => false
  | p :: ps, c :: cs => p == c && leadMatch ps cs

def subMatch (pat : List Char) : List Char → Bool
  | [] => leadMatch pat []
  | c :: cs => leadMatch pat (c :: cs) || subMatch pat cs

/-- Python substring containment `pat in s` for strings. -/
def strIn (pat s : String) : Bool := subMatch pat.data s.data

/-- Exceptions the embedded code can raise. `preprocessing` is the repository's
`PreprocessingError`; `keyError` models a Python `KeyError` on a missing layer or
column; `unboundLocal` models Python's `UnboundLocalError` when a local variable is
referenced before any assignment on the executed path. -/
inductive PyErr
  | preprocessing (msg : String)
  | keyError (key : String)
  | unboundLocal (name : String)
deriving DecidableEq

/-- Trace tags recording which estimation / post-processing operations `_score_pixels`
dispatched to, in order. -/
inductive Step
  | conv2dGauss
  | conv2dCircle
  | scaleTo01
  | moranI
  | emEstimation
  | viEstimation
  | conditionals
  | forceCertainConds
  | beliefProp
  | confidence
  | clipCertain
  | gaussBlur
deriving DecidableEq

/-- Modelled from the spec: the numeric estimation and image-processing kernels used by
`icell.py` live in the modules `utils`, `moran`, `em`, `vi`, `bp` (and the external
libraries `skimage.filters` / `cv2`), none of which are part of the excerpt. They are
abstracted as parameters: a 2-D convolution in `gauss` and in `circle` mode, rescaling
to `[0, 1]`, the Moran's I estimator, EM and VI parameter estimation (with opaque
result types `ε` and `ν`), their conditional-probability functions, belief propagation,
the EM confidence map, morphological close-then-open, and the Otsu / multi-Otsu /
local / adaptive threshold selectors. -/
structure Kernels (ε ν : Type) where
  conv2dG : Img → Nat → Option Img → Img
  conv2dC : Img → Nat → Option Img → Img
  scaleTo01 : Img → Img
  runMoran : Img → Option BImg → Img
  runEM : Img → Option Img → ε
  runVI : Img → Option Img → ν
  emConditionals : ε → Option Img → Img → Img × Img
  viConditionals : ν → Option Img → Img → Img × Img
  runBP : Img → Img → Img
  confidence : Img → ε → Option Img → Img
  mcloseMopen : BImg → Nat → BImg
  thresholdOtsu : Img → ℚ
  thresholdMultiotsuSecond : Img → ℚ
  multiotsuAt : Img → Nat → Nat → ℚ
  thresholdLocalGauss : Img → Nat → ℚ → Img
  adaptiveThresholdCv : Img → Nat → ℚ → BImg

/-- The valid (lowercased) methods accepted by `_score_pixels`. -/
def validMethods : List String :=
  ["gauss", "moran", "em", "em+gauss", "em+bp", "vi+gauss", "vi+bp"]

def certainShapeBad (X : Img) : Option BImg → Bool
  | some cm => decide (X.shape ≠ cm.shape)
  | none => false

def binsShapeBad (X : Img) : Option Img → Bool
  | some b => decide (X.shape ≠ b.shape)
  | none => false

/-- Embedding of `_score_pixels` (icell.py, lines 140-251). Besides the scored image it
returns the ordered trace of estimation steps dispatched to. The Python local variable
`em_results`, which is only assigned in the EM branch, is modelled as an `Option ε`;
referencing it in the non-BP confidence branch while it is `none` raises
`UnboundLocalError`, exactly as Python does. -/
def scorePixels {ε ν : Type} (K : Kernels ε ν) (X : Img) (k : Nat) (method : String)
    (certainMask : Option BImg) (bins : Option Img) : Except PyErr (Img × List Step) :=
  if pyLower method ∉ validMethods then
    Except.error (PyErr.preprocessing ("Unknown method `" ++ method ++ "`"))
  else if certainShapeBad X certainMask then
    Except.error (PyErr.preprocessing "`certain_mask` does not have the same shape as `X`")
  else if binsShapeBad X bins then
    Except.error (PyErr.preprocessing "`bins` does not have the same shape as `X`")
  else
    let m := pyLower method
    let res0 := if m == "gauss" || m == "moran" then K.conv2dG X k bins else K.conv2dC X k bins
    let s0 := if m == "gauss" || m == "moran" then Step.conv2dGauss else Step.conv2dCircle
    if m == "gauss" then
      Except.ok (K.scaleTo01 res0, [s0, Step.scaleTo01])
    else if m == "moran" then
      let r := K.runMoran res0 (bins.map Img.posMask)
      Except.ok (r.divMax, [s0, Step.moranI])
    else
      let branch : (Img → Img × Img) × Option ε × Step :=
        if strIn "em" m then
          let e := K.runEM res0 bins
          (fun r => K.emConditionals e bins r, some e, Step.emEstimation)
        else
          let v := K.runVI res0 bins
          (fun r => K.viConditionals v bins r, none, Step.viEstimation)
      let condFun := branch.1
      let emRes := branch.2.1
      let estStep := branch.2.2
      let core : Except PyErr (Img × List Step) :=
        if strIn "bp" m then
          let bc := condFun res0
          let bc2 :=
            match certainMask with
            | some cm => ((bc.1).setWhere cm (1 / 100), (bc.2).setWhere cm (1 - 1 / 100))
            | none => bc
          let stepsC :=
            if certainMask.isSome then [Step.conditionals, Step.forceCertainConds]
            else [Step.conditionals]
          Except.ok (K.runBP bc2.1 bc2.2, [s0, estStep] ++ stepsC ++ [Step.beliefProp])
        else
          match emRes with
          | none => Except.error (PyErr.unboundLocal "em_results")
          | some e =>
            let r1 := K.confidence res0 e bins
            let r2 :=
              match certainMask with
              | some cm => r1.clipAddMask cm
              | none => r1
            let stepsC :=
              if certainMask.isSome then [Step.confidence, Step.clipCertain]
              else [Step.confidence]
            Except.ok (r2, [s0, estStep] ++ stepsC)
      match core with
      | Except.error e => Except.error e
      | Except.ok rs =>
        if strIn "gauss" m then
          Except.ok (K.conv2dG rs.1 k bins, rs.2 ++ [Step.gaussBlur])
        else Except.ok rs

/-- A layer value stored in `adata.layers`: either a numeric or a boolean array. -/
inductive PyLayer
  | numL (x : Img)
  | boolL (b : BImg)
deriving DecidableEq

/-- The slice of the AnnData container that `icell.py` touches: the named layers.
Modelled as an association list keyed by layer name. -/
structure PyAnnData where
  layers : List (String × PyLayer)
deriving DecidableEq

/-- Update an association list at a key: overwrite the first binding, append if absent
(Python dict assignment semantics, as used by `SKM.set_layer_data`). -/
def updateA {β : Type} : List (String × β) → String → β → List (String × β)
  | [], k, v => [(k, v)]
  | (k0, v0) :: rest, k, v =>
    if k0 = k then (k, v) :: rest else (k0, v0) :: updateA rest k v

theorem lookup_updateA_self {β : Type} (l : List (String × β)) (key : String) (v : β) :
    (updateA l key v).lookup key = some v := by
  induction l with
  | nil => simp [updateA, List.lookup]
  | cons hd tl ih =>
    obtain ⟨k0, v0⟩ := hd
    by_cases hk : k0 = key
    · simp [updateA, hk, List.lookup]
    · have hbeq : (key == k0) = false := beq_eq_false_iff_ne.mpr (fun h => hk h.symm)
      simp [updateA, hk, List.lookup, hbeq, ih]

theorem lookup_updateA_other {β : Type} (l : List (String × β)) (key other : String) (v : β)
    (hne : other ≠ key) : (updateA l key v).lookup other = l.lookup other := by
  have hbeq : (other == key) = false := beq_eq_false_iff_ne.mpr hne
  induction l with
  | nil => simp [updateA, List.lookup, hbeq]
  | cons hd tl ih =>
    obtain ⟨k0, v0⟩ := hd
    by_cases hk : k0 = key
    · subst hk
      simp [updateA, List.lookup, hbeq]
    · simp only [updateA, if_neg hk, List.lookup]
      cases hc : (other == k0) <;> simp [ih]

def PyAnnData.getLayer (a : PyAnnData) (k : String) : Option PyLayer := a.layers.lookup k

/-- Embedding of `SKM.set_layer_data` on the layer slice of the container. -/
def setLayer (a : PyAnnData) (k : String) (v : PyLayer) : PyAnnData :=
  ⟨updateA a.layers k v⟩

/-- Reading a layer densely as a numeric array (`SKM.select_layer_data(..., make_dense=True)`). -/
def layerImg : PyLayer → Img
  | PyLayer.numL x => x
  | PyLayer.boolL b => b.toImg

/-- Reading a layer as booleans (`SKM.select_layer_data(...).astype(bool)`). -/
def layerBool : PyLayer → BImg
  | PyLayer.numL x => x.toBMask
  | PyLayer.boolL b => b

/-- Selecting a layer that must exist; a missing key is a Python `KeyError`. -/
def selectImg (a : PyAnnData) (k : String) : Except PyErr Img :=
  match a.getLayer k with
  | none => Except.error (PyErr.keyError k)
  | some l => Except.ok (layerImg l)

/-- Python falsy-default on an optional string argument: `arg or default` is the
default when the argument is `None` or the empty string. -/
def pyOrS (o : Option String) (dflt : String) : String :=
  match o with
  | none => dflt
  | some s => if s = "" then dflt else s

/-- Embedding of `_mask_cells_from_stain` (icell.py, lines 24-29):
multi-Otsu thresholds, keep pixels at or above the chosen threshold, then
morphological close and open. -/
def maskCellsStain {ε ν : Type} (K : Kernels ε ν) (X : Img)
    (otsuClasses otsuIndex mkk : Nat) : BImg :=
  K.mcloseMopen (X.geMask (K.multiotsuAt X otsuClasses otsuIndex)) mkk

/-- Embedding of `_mask_nuclei_from_stain` (icell.py, lines 32-59): multi-Otsu
background mask, a local (adaptive) threshold whose implementation depends on the
array dtype, and morphological close and open of their conjunction. -/
def maskNucleiStain {ε ν : Type} (K : Kernels ε ν) (X : Img)
    (otsuClasses otsuIndex localK : Nat) (offset : ℚ) (mkk : Nat) : BImg :=
  let backgroundMask := X.ltMask (K.multiotsuAt X otsuClasses otsuIndex)
  let localMask :=
    if X.u8 = false then X.gtImg (K.thresholdLocalGauss X localK offset)
    else K.adaptiveThresholdCv X localK offset
  K.mcloseMopen ((backgroundMask.neg).and localMask) mkk

/-- Embedding of `mask_cells_from_stain` (icell.py, lines 62-93): raise
`PreprocessingError` when the staining layer is absent, otherwise store the cell mask
under `out_layer`, which defaults to the layer name suffixed with `_mask`. -/
def maskCellsFromStain {ε ν : Type} (K : Kernels ε ν) (a : PyAnnData)
    (otsuClasses otsuIndex mkk : Nat) (layer : String) (outLayer : Option String) :
    Except PyErr PyAnnData :=
  match a.getLayer layer with
  | none =>
    Except.error (PyErr.preprocessing ("Layer \"" ++ layer ++ "\" does not exist in AnnData."))
  | some l =>
    let X := layerImg l
    let mask := maskCellsStain K X otsuClasses otsuIndex mkk
    let out := pyOrS outLayer (layer ++ "_mask")
    Except.ok (setLayer a out (PyLayer.boolL mask))

/-- Embedding of `mask_nuclei_from_stain` (icell.py, lines 96-137): raise
`PreprocessingError` when the staining layer is absent, otherwise store the nuclei mask
(computed with the negated offset, as in the source) under `out_layer`, which defaults
to the layer name suffixed with `_mask`. -/
def maskNucleiFromStain {ε ν : Type} (K : Kernels ε ν) (a : PyAnnData)
    (otsuClasses otsuIndex localK : Nat) (offset : ℚ) (mkk : Nat)
    (layer : String) (outLayer : Option String) : Except PyErr PyAnnData :=
  match a.getLayer layer with
  | none =>
    Except.error (PyErr.preprocessing ("Layer \"" ++ layer ++ "\" does not exist in AnnData."))
  | some l =>
    let X := layerImg l
    let mask := maskNucleiStain K X otsuClasses otsuIndex localK (-offset) mkk
    let out := pyOrS outLayer (layer ++ "_mask")
    Except.ok (setLayer a out (PyLayer.boolL mask))

/-- The `bins_layer` argument of `score_and_mask_pixels`: `None` (pick the default
name), the literal `False` (disable binning), or an explicit layer name. -/
inductive BinsArg
  | auto
  | off
  | named (s : String)
deriving DecidableEq

/-- The effective bins layer name: `bins_layer = bins_layer or gen_new_layer_key(layer, BINS_SUFFIX)`
unless binning is disabled with the literal `False`. -/
def binsName (b : BinsArg) (dflt : String) : Option String :=
  match b with
  | BinsArg.off => none
  | BinsArg.auto => some dflt
  | BinsArg.named s => some (if s = "" then dflt else s)

/-- The certain mask read by `score_and_mask_pixels`: only when `certain_layer` is
truthy (neither `None` nor empty); a missing layer is a `KeyError`. -/
def getCertain (a : PyAnnData) (certainLayer : Option String) : Except PyErr (Option BImg) :=
  match certainLayer with
  | none => Except.ok none
  | some c =>
    if c = "" then Except.ok none
    else
      match a.getLayer c with
      | none => Except.error (PyErr.keyError c)
      | some l => Except.ok (some (layerBool l))

/-- The bins read by `score_and_mask_pixels`: the effective bins layer when it exists
in the container, `None` otherwise (never an error). -/
def getBins (a : PyAnnData) (layer : String) (b : BinsArg) : Option Img :=
  match binsName b (layer ++ "_bins") with
  | none => none
  | some nm => (a.getLayer nm).map layerImg

/-- The threshold applied by `score_and_mask_pixels`: the source tests `if not threshold`,
so a supplied threshold of `0` (like `None`) triggers the automatic histogram selection,
which is the second threshold of the 3-class multi-Otsu method when the method involves
belief propagation and the Otsu threshold otherwise. -/
def pickThreshold {ε ν : Type} (K : Kernels ε ν) (method : String) (threshold : Option ℚ)
    (scores : Img) : ℚ :=
  let auto :=
    if strIn "bp" method then K.thresholdMultiotsuSecond scores else K.thresholdOtsu scores
  match threshold with
  | none => auto
  | some t => if t = 0 then auto else t

/-- The morphology kernel size used by `score_and_mask_pixels`: the source computes
`mk or (k + 2 if any(m in method for m in ("em", "vi")) else 3)`, so a supplied `mk`
of `0` (like `None`) falls back to the default. -/
def pickMk (mk0 : Option Nat) (k : Nat) (method : String) : Nat :=
  let dflt := if strIn "em" method || strIn "vi" method then k + 2 else 3
  match mk0 with
  | none => dflt
  | some v => if v = 0 then dflt else v

/-- Modelled from the spec: `utils.apply_threshold` (module `utils` is absent from the
excerpt) is the thresholding/mask post-processor, binarizing the scores at the cutoff
and cleaning the result with a morphological close and open of kernel size `mkv`. -/
def applyThreshold {ε ν : Type} (K : Kernels ε ν) (scores : Img) (mkv : Nat) (t : ℚ) : BImg :=
  K.mcloseMopen (scores.gtMask t) mkv

/-- The final mask of `score_and_mask_pixels`: the thresholded mask, OR-ed with the
certain mask when one was read (`mask += certain_mask` on boolean arrays). -/
def withCertain (certain : Option BImg) (mask : BImg) : BImg :=
  match certain with
  | some cm => mask.or cm
  | none => mask

/-- The storing tail of `score_and_mask_pixels` (icell.py, lines 317-330): store the
scores, pick the threshold and the morphology kernel, threshold, OR in the certain
mask, store the final mask. -/
def smStore {ε ν : Type} (K : Kernels ε ν) (a : PyAnnData) (method : String) (k : Nat)
    (threshold : Option ℚ) (mk0 : Option Nat) (certain : Option BImg)
    (scoresL maskL : String) (scores : Img) : PyAnnData :=
  let a1 := setLayer a scoresL (PyLayer.numL scores)
  let t := pickThreshold K method threshold scores
  let mkv := pickMk mk0 k method
  let mask := withCertain certain (applyThreshold K scores mkv t)
  setLayer a1 maskL (PyLayer.boolL mask)

/-- Embedding of `score_and_mask_pixels` (icell.py, lines 254-330): read the raw layer,
read the certain mask and the bins, lowercase the method, score the pixels with
`_score_pixels`, store the scores under `scores_layer` (default `{layer}_scores`),
threshold them and store the final mask under `mask_layer` (default `{layer}_mask`). -/
def scoreAndMaskPixels {ε ν : Type} (K : Kernels ε ν) (a : PyAnnData) (layer : String)
    (k : Nat) (method : String) (threshold : Option ℚ) (mk0 : Option Nat)
    (binsLayer : BinsArg) (certainLayer : Option String)
    (scoresLayer maskLayer : Option String) : Except PyErr PyAnnData :=
  match selectImg a layer with
  | Except.error e => Except.error e
  | Except.ok X =>
    match getCertain a certainLayer with
    | Except.error e => Except.error e
    | Except.ok certain =>
      let bins := getBins a layer binsLayer
      let m := pyLower method
      match scorePixels K X k m certain bins with
      | Except.error e => Except.error e
      | Except.ok scored =>
        Except.ok (smStore K a m k threshold mk0 certain
          (pyOrS scoresLayer (layer ++ "_scores")) (pyOrS maskLayer (layer ++ "_mask"))
          scored.1)

/-- Concrete instantiation of the abstract numeric kernels, used to evaluate the
embedding on concrete inputs: convolutions and rescaling are the identity, EM / VI
results are trivial, belief propagation returns the cell conditionals, the morphological
clean-up is the identity and every threshold selector returns 1. -/
def trivKernels : Kernels Unit Unit where
  conv2dG := fun x _ _ => x
  conv2dC := fun x _ _ => x
  scaleTo01 := fun x => x
  runMoran := fun x _ => x
  runEM := fun _ _ => ()
  runVI := fun _ _ => ()
  emConditionals := fun _ _ r => (r, r)
  viConditionals := fun _ _ r => (r, r)
  runBP := fun _ c => c
  confidence := fun r _ _ => r
  mcloseMopen := fun b _ => b
  thresholdOtsu := fun _ => 1
  thresholdMultiotsuSecond := fun _ => 1
  multiotsuAt := fun _ _ _ => 1
  thresholdLocalGauss := fun x _ _ => x
  adaptiveThresholdCv := fun x _ _ => x.toBMask

/-- Inversion principle for a successful `score_and_mask_pixels` call: the raw layer was
read, the certain mask was read, `_score_pixels` succeeded, and the result is exactly
the store of the scores followed by the store of the thresholded mask. -/
theorem scoreAndMask_ok_inv {ε ν : Type} (K : Kernels ε ν) (a a2 : PyAnnData) (layer : String)
    (k : Nat) (method : String) (threshold : Option ℚ) (mk0 : Option Nat) (binsLayer : BinsArg)
    (certainLayer scoresLayer maskLayer : Option String)
    (h : scoreAndMaskPixels K a layer k method threshold mk0 binsLayer certainLayer
          scoresLayer maskLayer = Except.ok a2) :
    ∃ (X : Img) (certain : Option BImg) (scored : Img × List Step),
      selectImg a layer = Except.ok X ∧
      getCertain a certainLayer = Except.ok certain ∧
      scorePixels K X k (pyLower method) certain (getBins a layer binsLayer) =
        Except.ok scored ∧
      a2 = smStore K a (pyLower method) k threshold mk0 certain
        (pyOrS scoresLayer (layer ++ "_scores")) (pyOrS maskLayer (layer ++ "_mask"))
        scored.1 := by
  unfold scoreAndMaskPixels at h
  cases hX : selectImg a layer with
  | error e => simp only [hX] at h; exact Except.noConfusion h
  | ok X =>
    simp only [hX] at h
    cases hC : getCertain a certainLayer with
    | error e => simp only [hC] at h; exact Except.noConfusion h
    | ok certain =>
      simp only [hC] at h
      cases hS : scorePixels K X k (pyLower method) certain (getBins a layer binsLayer) with
      | error e => simp only [hS] at h; exact Except.noConfusion h
      | ok scored =>
        simp only [hS, Except.ok.injEq] at h
        exact ⟨X, certain, scored, rfl, rfl, hS, h.symm⟩

/-- C1: on the valid method `vi+gauss`, `_score_pixels` passes its validation (no
`PreprocessingError` is raised) and dispatches to the VI estimator, but then crashes
with `UnboundLocalError`: the non-BP confidence branch reads the local `em_results`,
which is only ever assigned in the EM branch. This holds for every kernel
instantiation, every input array and every kernel size. -/
theorem c1_vi_gauss_unbound_local {ε ν : Type} (K : Kernels ε ν) (X : Img) (k : Nat) :
    scorePixels K X k "vi+gauss" none none =
      Except.error (PyErr.unboundLocal "em_results") := rfl

/-- A sample numeric layer used to evaluate the embedding on concrete inputs. -/
def imgW : Img := ⟨1, 2, [0, 2], false⟩

def aW : PyAnnData := ⟨[("x", PyLayer.numL imgW)]⟩

def a2W : PyAnnData :=
  ⟨[("x", PyLayer.numL imgW), ("x_scores", PyLayer.numL imgW),
    ("x_mask", PyLayer.boolL ⟨1, 2, [false, true]⟩)]⟩

/-- C2: every successful `score_and_mask_pixels` call stores the computed scores under
the scores layer (default `{layer}_scores`) and stores under the mask layer (default
`{layer}_mask`) exactly the morphologically cleaned thresholding of those stored
scores, OR-ed with the certain mask when a certain layer was given; afterwards both
layers exist in the container. -/
theorem c2_score_and_mask_layers {ε ν : Type} (K : Kernels ε ν) (a a2 : PyAnnData)
    (layer : String) (k : Nat) (method : String) (threshold : Option ℚ) (mk0 : Option Nat)
    (binsLayer : BinsArg) (certainLayer scoresLayer maskLayer : Option String)
    (h : scoreAndMaskPixels K a layer k method threshold mk0 binsLayer certainLayer
          scoresLayer maskLayer = Except.ok a2)
    (hne : pyOrS scoresLayer (layer ++ "_scores") ≠ pyOrS maskLayer (layer ++ "_mask")) :
    ∃ (scores : Img) (certain : Option BImg),
      getCertain a certainLayer = Except.ok certain ∧
      a2.getLayer (pyOrS scoresLayer (layer ++ "_scores")) = some (PyLayer.numL scores) ∧
      a2.getLayer (pyOrS maskLayer (layer ++ "_mask")) =
        some (PyLayer.boolL (withCertain certain
          (applyThreshold K scores (pickMk mk0 k (pyLower method))
            (pickThreshold K (pyLower method) threshold scores)))) := by
  obtain ⟨X, certain, scored, hX, hC, hS, ha2⟩ :=
    scoreAndMask_ok_inv K a a2 layer k method threshold mk0 binsLayer certainLayer
      scoresLayer maskLayer h
  subst ha2
  refine ⟨scored.1, certain, hC, ?_, ?_⟩
  · simp only [smStore, setLayer, PyAnnData.getLayer]
    rw [lookup_updateA_other _ _ _ _ hne, lookup_updateA_self]
  · simp only [smStore, setLayer, PyAnnData.getLayer]
    rw [lookup_updateA_self]

theorem c2_witness :
    ∃ (scores : Img) (certain : Option BImg),
      getCertain aW none = Except.ok certain ∧
      a2W.getLayer (pyOrS none ("x" ++ "_scores")) = some (PyLayer.numL scores) ∧
      a2W.getLayer (pyOrS none ("x" ++ "_mask")) =
        some (PyLayer.boolL (withCertain certain
          (applyThreshold trivKernels scores (pickMk none 1 (pyLower "gauss"))
            (pickThreshold trivKernels (pyLower "gauss") none scores)))) :=
  c2_score_and_mask_layers trivKernels aW a2W "x" 1 "gauss" none none BinsArg.auto
    none none none (by rfl) (by decide)

/-- C3 (amended): the threshold applied by `score_and_mask_pixels` is the supplied one
whenever it is nonzero; a supplied threshold of `0`, exactly like an omitted one, is
replaced by the automatic histogram threshold (the second 3-class multi-Otsu threshold
when the method involves belief propagation, the Otsu threshold otherwise), because the
source guards the automatic selection with the falsy test `if not threshold`. -/
theorem c3_threshold_selection {ε ν : Type} (K : Kernels ε ν) (method : String)
    (scores : Img) :
    (∀ t : ℚ, t ≠ 0 → pickThreshold K method (some t) scores = t) ∧
    (∀ o : Option ℚ, o = none ∨ o = some 0 →
      pickThreshold K method o scores =
        if strIn "bp" method then K.thresholdMultiotsuSecond scores
        else K.thresholdOtsu scores) := by
  constructor
  · intro t ht
    simp [pickThreshold, ht]
  · rintro o (rfl | rfl) <;> simp [pickThreshold]

theorem c3_witness :
    (2 : ℚ) ≠ 0 ∧ pickThreshold trivKernels "em+bp" (some 2) imgW = 2 :=
  ⟨by norm_num, (c3_threshold_selection trivKernels "em+bp" imgW).1 2 (by norm_num)⟩

def imgT : Img := ⟨1, 2, [0, 1], false⟩

def aT : PyAnnData := ⟨[("x", PyLayer.numL imgT)]⟩

def aTres : PyAnnData :=
  ⟨[("x", PyLayer.numL imgT), ("x_scores", PyLayer.numL imgT),
    ("x_mask", PyLayer.boolL ⟨1, 2, [false, false]⟩)]⟩

/-- C3 counterexample: the caller supplies the threshold `0`, yet the stored mask is
the one obtained with the automatic Otsu threshold (here 1), not with the supplied
value: thresholding the stored scores at the supplied `0` would give a different mask.
So a supplied threshold is not always the one applied. -/
theorem c3_counterexample :
    scoreAndMaskPixels trivKernels aT "x" 1 "gauss" (some 0) (some 1) BinsArg.off
        none none none = Except.ok aTres ∧
    aTres.getLayer "x_mask" = some (PyLayer.boolL ⟨1, 2, [false, false]⟩) ∧
    applyThreshold trivKernels imgT 1 0 = ⟨1, 2, [false, true]⟩ ∧
    (⟨1, 2, [false, false]⟩ : BImg) ≠ ⟨1, 2, [false, true]⟩ :=
  ⟨by rfl, by rfl, by rfl, by decide⟩

/-- C8: `mask_cells_from_stain` and `mask_nuclei_from_stain` raise `PreprocessingError`
exactly when the requested staining layer is absent (and then nothing is stored, the
exception aborting before any write); when the layer exists, each stores the boolean
cell (respectively nuclei) mask under `out_layer`, defaulting to `{layer}_mask`. -/
theorem c8_stain_masks {ε ν : Type} (K : Kernels ε ν) (a : PyAnnData)
    (otsuClasses otsuIndex localK mkc mkn : Nat) (offset : ℚ)
    (layer : String) (outLayer : Option String) :
    (a.getLayer layer = none →
      (∃ msg, maskCellsFromStain K a otsuClasses otsuIndex mkc layer outLayer =
          Except.error (PyErr.preprocessing msg)) ∧
      (∃ msg, maskNucleiFromStain K a otsuClasses otsuIndex localK offset mkn layer
          outLayer = Except.error (PyErr.preprocessing msg))) ∧
    (∀ l, a.getLayer layer = some l →
      maskCellsFromStain K a otsuClasses otsuIndex mkc layer outLayer =
        Except.ok (setLayer a (pyOrS outLayer (layer ++ "_mask"))
          (PyLayer.boolL (maskCellsStain K (layerImg l) otsuClasses otsuIndex mkc))) ∧
      maskNucleiFromStain K a otsuClasses otsuIndex localK offset mkn layer outLayer =
        Except.ok (setLayer a (pyOrS outLayer (layer ++ "_mask"))
          (PyLayer.boolL (maskNucleiStain K (layerImg l) otsuClasses otsuIndex localK
            (-offset) mkn)))) := by
  constructor
  · intro hnone
    constructor
    · exact ⟨"Layer \"" ++ layer ++ "\" does not exist in AnnData.",
        by simp [maskCellsFromStain, hnone]⟩
    · exact ⟨"Layer \"" ++ layer ++ "\" does not exist in AnnData.",
        by simp [maskNucleiFromStain, hnone]⟩
  · intro l hl
    constructor
    · simp [maskCellsFromStain, hl]
    · simp [maskNucleiFromStain, hl]

theorem c8_witness :
    aW.getLayer "x" = some (PyLayer.numL imgW) ∧
    maskCellsFromStain trivKernels aW 3 0 7 "x" none =
      Except.ok (setLayer aW (pyOrS none ("x" ++ "_mask"))
        (PyLayer.boolL (maskCellsStain trivKernels (layerImg (PyLayer.numL imgW)) 3 0 7))) :=
  ⟨by rfl,
   ((c8_stain_masks trivKernels aW 3 0 55 7 5 5 "x" none).2 (PyLayer.numL imgW) (by rfl)).1⟩

/-- A pixel set in the right operand of a pointwise OR of boolean masks is set in the
result. -/
theorem or_get_right (x y : BImg) (i : Nat) (hm : i < (x.or y).data.length)
    (hy : i < y.data.length) (ht : y.data.get ⟨i, hy⟩ = true) :
    (x.or y).data.get ⟨i, hm⟩ = true := by
  have hlen : i < min x.data.length y.data.length := by
    simpa [BImg.or, List.length_zipWith] using hm
  have hx : i < x.data.length := lt_of_lt_of_le hlen (min_le_left _ _)
  simp only [BImg.or, List.get_eq_getElem] at hm ⊢
  rw [List.getElem_zipWith]
  simp only [List.get_eq_getElem] at ht
  simp [ht]

/-- C9: on every successful `score_and_mask_pixels` call with a (truthy) certain layer,
the stored final mask is the thresholded mask OR-ed with the certain mask, so every
pixel that is true in the certain layer is true in the stored mask, whatever the
scoring method; moreover, in the EM non-BP estimation branch the certain pixels are
additionally forced toward score 1 before thresholding, via `clip(res + certain_mask, 0, 1)`. -/
theorem c9_certain_pixels_in_mask {ε ν : Type} (K : Kernels ε ν) (a a2 : PyAnnData)
    (layer : String) (k : Nat) (method : String) (threshold : Option ℚ) (mk0 : Option Nat)
    (binsLayer : BinsArg) (cl : String) (scoresLayer maskLayer : Option String)
    (hcl : cl ≠ "")
    (h : scoreAndMaskPixels K a layer k method threshold mk0 binsLayer (some cl)
          scoresLayer maskLayer = Except.ok a2) :
    (∃ (cm : BImg) (maskD : BImg),
      getCertain a (some cl) = Except.ok (some cm) ∧
      a2.getLayer (pyOrS maskLayer (layer ++ "_mask")) = some (PyLayer.boolL maskD) ∧
      (∃ base : BImg, maskD = base.or cm) ∧
      (∀ (i : Nat) (hm : i < maskD.data.length) (hc : i < cm.data.length),
        cm.data.get ⟨i, hc⟩ = true → maskD.data.get ⟨i, hm⟩ = true)) ∧
    (∀ (Y : Img) (kk : Nat) (bins : Option Img) (dm : BImg),
      certainShapeBad Y (some dm) = false → binsShapeBad Y bins = false →
      scorePixels K Y kk "em" (some dm) bins =
        Except.ok
          ((K.confidence (K.conv2dC Y kk bins) (K.runEM (K.conv2dC Y kk bins) bins)
              bins).clipAddMask dm,
           [Step.conv2dCircle, Step.emEstimation, Step.confidence, Step.clipCertain])) := by
  constructor
  · obtain ⟨X, certain, scored, hX, hC, hS, ha2⟩ :=
      scoreAndMask_ok_inv K a a2 layer k method threshold mk0 binsLayer (some cl)
        scoresLayer maskLayer h
    have hcm : ∃ l, a.getLayer cl = some l ∧ certain = some (layerBool l) := by
      simp only [getCertain, if_neg hcl] at hC
      cases hget : a.getLayer cl with
      | none => rw [hget] at hC; exact Except.noConfusion hC
      | some l =>
        rw [hget] at hC
        injection hC with h2
        exact ⟨l, rfl, h2.symm⟩
    obtain ⟨l, hget, hcert⟩ := hcm
    subst hcert
    subst ha2
    refine ⟨layerBool l,
      (applyThreshold K scored.1 (pickMk mk0 k (pyLower method))
        (pickThreshold K (pyLower method) threshold scored.1)).or (layerBool l),
      hC, ?_, ⟨_, rfl⟩, ?_⟩
    · simp only [smStore, setLayer, PyAnnData.getLayer, withCertain]
      rw [lookup_updateA_self]
    · intro i hm hc ht
      exact or_get_right _ _ i hm hc ht
  · intro Y kk bins dm hsh hbins
    unfold scorePixels
    rw [if_neg (by decide)]
    rw [if_neg (by simp [hsh])]
    rw [if_neg (by simp [hbins])]
    rfl

def cmW : BImg := ⟨1, 2, [true, false]⟩

def aC : PyAnnData := ⟨[("x", PyLayer.numL imgW), ("c", PyLayer.boolL cmW)]⟩

/-- The scores the EM run computes on `imgW` with `cmW` certain (kept unevaluated:
exact rational arithmetic is carried symbolically). -/
def sc0 : ℚ := clip01 (0 + 1)

def sc1 : ℚ := clip01 (2 + 0)

def m0 : Bool := decide ((1 : ℚ) < sc0)

def m1 : Bool := decide ((1 : ℚ) < sc1)

def aCres : PyAnnData :=
  ⟨[("x", PyLayer.numL imgW), ("c", PyLayer.boolL cmW),
    ("x_scores", PyLayer.numL ⟨1, 2, [sc0, sc1], false⟩),
    ("x_mask", PyLayer.boolL ⟨1, 2, [Bool.or m0 true, Bool.or m1 false]⟩)]⟩

theorem c9_witness :
    (∃ (cm : BImg) (maskD : BImg),
      getCertain aC (some "c") = Except.ok (some cm) ∧
      aCres.getLayer (pyOrS none ("x" ++ "_mask")) = some (PyLayer.boolL maskD) ∧
      (∃ base : BImg, maskD = base.or cm) ∧
      (∀ (i : Nat) (hm : i < maskD.data.length) (hc : i < cm.data.length),
        cm.data.get ⟨i, hc⟩ = true → maskD.data.get ⟨i, hm⟩ = true)) ∧
    (∀ (Y : Img) (kk : Nat) (bins : Option Img) (dm : BImg),
      certainShapeBad Y (some dm) = false → binsShapeBad Y bins = false →
      scorePixels trivKernels Y kk "em" (some dm) bins =
        Except.ok
          ((trivKernels.confidence (trivKernels.conv2dC Y kk bins)
              (trivKernels.runEM (trivKernels.conv2dC Y kk bins) bins) bins).clipAddMask dm,
           [Step.conv2dCircle, Step.emEstimation, Step.confidence, Step.clipCertain])) :=
  c9_certain_pixels_in_mask trivKernels aC aCres "x" 1 "em" none none BinsArg.auto "c"
    none none (by decide) (by rfl)

/-! Embedding of the clustering pipeline of `spateo/tools/cluster/find_clusters.py`. -/

/-- An adjacency matrix (dense 2-D float array). -/
abbrev AdjM := List (List ℚ)

/-- A greyscale / RGB image consumed by the adjacency builder. -/
abbrev GreyImg := List (List Int)

/-- A pandas-style observation column together with its dtype. Assigning a plain
Python list to `adata.obs[key]` produces an object-dtype column (`intCol`, `ratCol`,
`strCol`); `astype("category")` produces a categorical one (`catInt`, `catRat`,
`catStr`). -/
inductive PyCol
  | intCol (vs : List Int)
  | ratCol (vs : List ℚ)
  | strCol (vs : List String)
  | catInt (vs : List Int)
  | catRat (vs : List ℚ)
  | catStr (vs : List String)
deriving DecidableEq

def isCategorical : PyCol → Bool
  | PyCol.catInt _ => true
  | PyCol.catRat _ => true
  | PyCol.catStr _ => true
  | _ => false

/-- pandas `astype("category")`: keep the values, make the dtype categorical. -/
def astypeCat : PyCol → PyCol
  | PyCol.intCol vs => PyCol.catInt vs
  | PyCol.ratCol vs => PyCol.catRat vs
  | PyCol.strCol vs => PyCol.catStr vs
  | PyCol.catInt vs => PyCol.catInt vs
  | PyCol.catRat vs => PyCol.catRat vs
  | PyCol.catStr vs => PyCol.catStr vs

/-- Python `[str(i) for i in column]`. -/
def colStrs : PyCol → List String
  | PyCol.intCol vs => vs.map (fun i => toString i)
  | PyCol.ratCol vs => vs.map (fun q => toString q)
  | PyCol.strCol vs => vs
  | PyCol.catInt vs => vs.map (fun i => toString i)
  | PyCol.catRat vs => vs.map (fun q => toString q)
  | PyCol.catStr vs => vs

/-- Reading a numeric observation column as floats (`adata.obs[key].tolist()`); the
coordinate columns used by `spagcn_pyg` are numeric in every modelled use. -/
def colRats : PyCol → List ℚ
  | PyCol.intCol vs => vs.map (fun i => (i : ℚ))
  | PyCol.ratCol vs => vs
  | PyCol.strCol _ => []
  | PyCol.catInt vs => vs.map (fun i => (i : ℚ))
  | PyCol.catRat vs => vs
  | PyCol.catStr _ => []

/-- Python `int(x)` on an exact rational: truncation toward zero. -/
def pyInt (q : ℚ) : Int := q.num / (q.den : Int)

/-- The slice of the AnnData container that `spagcn_pyg` touches: the observation
index, the observation columns, the spatial coordinates in `obsm["X_spatial"]`, and
the unstructured slot holding adjacency matrices. -/
structure AnnDataC where
  obsIndex : List String
  obs : List (String × PyCol)
  obsmSpatial : List (ℚ × ℚ)
  uns : List (String × AdjM)
deriving DecidableEq

/-- Modelled from the spec: the SpaGCN helpers imported star-wise from
`spagcn_utils` (absent from the excerpt) — `calculate_adj_matrix` with and without
histology, `cv2.imread`, the pandas pivot building the UMI grey image (source lines
87-89), the function of `l` bisected by `search_l`, the per-trial clustering used by
`search_res` (cluster count and convergence epoch), the SpaGCN train/predict cycle
and the cluster refinement — abstracted as parameters of the embedding. -/
structure SpaDeps where
  calcAdjNoHist : List ℚ → List ℚ → AdjM
  calcAdjHist : List ℚ → List ℚ → List ℚ → List ℚ → GreyImg → Nat → Nat → AdjM
  imread : String → GreyImg
  umiImage : List ℚ → List ℚ → List Int → GreyImg
  pOfL : AdjM → ℚ → ℚ
  nClustersAt : AnnDataC → AdjM → ℚ → ℚ → Nat → Nat
  convergeEpoch : ℚ → Nat
  trainPredict : AnnDataC → AdjM → ℚ → ℚ → Nat → Nat → Nat → Nat → List Int
  refineLabels : List String → List String → AdjM → String → List String

/-- Modelled from the spec: `search_l` from `spagcn_utils` searches the characteristic
parameter `l` over `[lo, hi]` by bisection against the target `p`, stopping when the
interval is within `tol` and never exceeding the given number of runs (the fuel).
Returns the parameter found and the number of bisection runs used. -/
def searchLGo (f : ℚ → ℚ) (p tol : ℚ) : Nat → ℚ → ℚ → Nat → ℚ × Nat
  | 0, lo, hi, runs => ((lo + hi) / 2, runs)
  | fuel + 1, lo, hi, runs =>
    if hi - lo ≤ tol then ((lo + hi) / 2, runs)
    else if f ((lo + hi) / 2) < p then searchLGo f p tol fuel ((lo + hi) / 2) hi (runs + 1)
    else searchLGo f p tol fuel lo ((lo + hi) / 2) (runs + 1)

def searchL (f : ℚ → ℚ) (p lo hi tol : ℚ) (maxRun : Nat) : ℚ × Nat :=
  searchLGo f p tol maxRun lo hi 0

theorem searchLGo_runs_le (f : ℚ → ℚ) (p tol : ℚ) :
    ∀ (fuel : Nat) (lo hi : ℚ) (runs : Nat),
      (searchLGo f p tol fuel lo hi runs).2 ≤ runs + fuel := by
  intro fuel
  induction fuel with
  | zero => intro lo hi runs; simp [searchLGo]
  | succ n ih =>
    intro lo hi runs
    simp only [searchLGo]
    split
    · simp
    · split
      · exact le_trans (ih _ _ _) (by omega)
      · exact le_trans (ih _ _ _) (by omega)

theorem searchL_runs_le (f : ℚ → ℚ) (p lo hi tol : ℚ) (maxRun : Nat) :
    (searchL f p lo hi tol maxRun).2 ≤ maxRun := by
  simpa using searchLGo_runs_le f p tol maxRun lo hi 0

/-- Modelled from the spec: the trial bound of the `search_res` resolution search loop
(the loop body is not part of the excerpt; the SpaGCN convention bounds it by 10
trials). -/
def searchResMaxRun : Nat := 10

/-- Modelled from the spec: `search_res` from `spagcn_utils` is an algorithmic search
loop over clustering resolutions: starting from `res`, each trial runs the clustering
for at most `maxEpochs` epochs (stopping earlier at its convergence epoch), the
resolution is stepped while the cluster count differs from the target, and the whole
loop is bounded (the fuel). Returns the resolution, the number of trials, and the
epochs each trial ran. -/
def searchResGo (D : SpaDeps) (a : AnnDataC) (adj : AdjM) (l : ℚ) (target : Nat)
    (step : ℚ) (maxEpochs : Nat) : Nat → ℚ → Nat → List Nat → ℚ × Nat × List Nat
  | 0, res, runs, epochs => (res, runs, epochs)
  | fuel + 1, res, runs, epochs =>
    let e := min (D.convergeEpoch res) maxEpochs
    if D.nClustersAt a adj l res maxEpochs = target then (res, runs + 1, epochs ++ [e])
    else searchResGo D a adj l target step maxEpochs fuel (res + step) (runs + 1)
      (epochs ++ [e])

def searchRes (D : SpaDeps) (a : AnnDataC) (adj : AdjM) (l : ℚ) (target : Nat)
    (start step tol : ℚ) (maxEpochs maxRun : Nat) : ℚ × Nat × List Nat :=
  searchResGo D a adj l target step maxEpochs maxRun start 0 []

theorem searchResGo_runs_le (D : SpaDeps) (a : AnnDataC) (adj : AdjM) (l : ℚ)
    (target : Nat) (step : ℚ) (maxEpochs : Nat) :
    ∀ (fuel : Nat) (res : ℚ) (runs : Nat) (epochs : List Nat),
      (searchResGo D a adj l target step maxEpochs fuel res runs epochs).2.1 ≤
        runs + fuel := by
  intro fuel
  induction fuel with
  | zero => intro res runs epochs; simp [searchResGo]
  | succ n ih =>
    intro res runs epochs
    simp only [searchResGo]
    split
    · simp
    · exact le_trans (ih _ _ _) (by omega)

theorem searchResGo_epochs_le (D : SpaDeps) (a : AnnDataC) (adj : AdjM) (l : ℚ)
    (target : Nat) (step : ℚ) (maxEpochs : Nat) :
    ∀ (fuel : Nat) (res : ℚ) (runs : Nat) (epochs : List Nat),
      (∀ e ∈ epochs, e ≤ maxEpochs) →
      ∀ e ∈ (searchResGo D a adj l target step maxEpochs fuel res runs epochs).2.2,
        e ≤ maxEpochs := by
  intro fuel
  induction fuel with
  | zero => intro res runs epochs hep; simpa [searchResGo] using hep
  | succ n ih =>
    intro res runs epochs hep
    simp only [searchResGo]
    split
    · intro e he
      simp at he
      rcases he with he | he
      · exact hep e he
      · simp [he, min_le_right]
    · refine ih _ _ _ ?_
      intro e he
      simp at he
      rcases he with he | he
      · exact hep e he
      · simp [he, min_le_right]

/-- Reading an observation column as a float list (`adata.obs[key].tolist()`);
a missing column is a Python `KeyError`. -/
def getObsRats (a : AnnDataC) (c : String) : Except PyErr (List ℚ) :=
  match a.obs.lookup c with
  | none => Except.error (PyErr.keyError c)
  | some col => Except.ok (colRats col)

/-- The coordinate extraction of `spagcn_pyg` (find_clusters.py, lines 58-76):
`x_array`/`y_array` default to the columns of `obsm["X_spatial"]`, `x_pixel`/`y_pixel`
default to the integer truncations of the array coordinates; a named argument selects
the observation column instead. -/
def spagcnInputs (a : AnnDataC) (xPixel yPixel xArray yArray : Option String) :
    Except PyErr (List ℚ × List ℚ × List ℚ × List ℚ) := do
  let xa ← match xArray with
    | none => pure (a.obsmSpatial.map Prod.fst)
    | some c => getObsRats a c
  let ya ← match yArray with
    | none => pure (a.obsmSpatial.map Prod.snd)
    | some c => getObsRats a c
  let xp ← match xPixel with
    | none => pure (xa.map (fun q => ((pyInt q : Int) : ℚ)))
    | some c => getObsRats a c
  let yp ← match yPixel with
    | none => pure (ya.map (fun q => ((pyInt q : Int) : ℚ)))
    | some c => getObsRats a c
  pure (xa, ya, xp, yp)

/-- The adjacency computation of `spagcn_pyg` (find_clusters.py, lines 81-111): without
a histology image, either the plain coordinate adjacency, or the one computed from the
total-UMI grey image (rescaled into 1..255 by `int(x / max * 254 + 1)`); with a
histology image path, the adjacency computed from the read image. `beta` and `alpha`
receive the (reassigned) `b` and `s`. -/
def spagcnAdj (D : SpaDeps) (a : AnnDataC) (hisImgPath totalUmi : Option String)
    (xa ya xp yp : List ℚ) (b s : Nat) : Except PyErr AdjM :=
  match hisImgPath with
  | none =>
    match totalUmi with
    | none => Except.ok (D.calcAdjNoHist xa ya)
    | some tc =>
      match getObsRats a tc with
      | Except.error e => Except.error e
      | Except.ok tu =>
        let tu2 := tu.map (fun x => pyInt (x / listMax tu * 254 + 1))
        let img := D.umiImage xp yp tu2
        Except.ok (D.calcAdjHist xa ya xp yp img b s)
  | some path =>
    let img := D.imread path
    Except.ok (D.calcAdjHist xa ya xp yp img b s)

/-- The outcome of a `spagcn_pyg` run: the mutated container, the returned value
(`adata` when `copy`, else `None`), and a record of the adjacency and of the two
parameter searches (their argument tuples, results and run counts). -/
structure SpaRun where
  adata : AnnDataC
  ret : Option AnnDataC
  adj : AdjM
  lArgs : ℚ × ℚ × ℚ × Nat
  lFound : ℚ
  lRuns : Nat
  resArgs : ℚ × ℚ × ℚ × Nat
  resFound : ℚ
  resRuns : Nat
  resEpochs : List Nat
deriving DecidableEq

/-- The pure tail of `spagcn_pyg` (find_clusters.py, lines 113-174): store the
adjacency in `uns["adj_spagcn"]`, search `l` over `[0.01, 1000]` with tolerance `0.01`
and at most 100 runs, search the resolution from `0.7` with step `0.1`, tolerance
`5e-3` and at most 20 epochs per trial, train and predict, store the predictions in
`obs["spagcn_pred"]` (assigned, cast to categorical, then overwritten by the plain
list of their `str` values), optionally refine and store
`obs["spagcn_pred_refined"]` as a categorical column, and return `adata` iff `copy`. -/
def spagcnCore (D : SpaDeps) (a : AnnDataC) (nClusters : Nat) (p : ℚ)
    (refineShape : Option String) (seed : Nat) (copy : Bool)
    (xa ya : List ℚ) (adj : AdjM) : SpaRun :=
  let a1 : AnnDataC := { a with uns := updateA a.uns "adj_spagcn" adj }
  let lArgs : ℚ × ℚ × ℚ × Nat := (1 / 100, 1000, 1 / 100, 100)
  let lRes := searchL (D.pOfL adj) p (1 / 100) 1000 (1 / 100) 100
  let l := lRes.1
  let resArgs : ℚ × ℚ × ℚ × Nat := (7 / 10, 1 / 10, 1 / 200, 20)
  let resOut := searchRes D a1 adj l nClusters (7 / 10) (1 / 10) (1 / 200) 20
    searchResMaxRun
  let res := resOut.1
  let yPred := D.trainPredict a1 adj l res 200 seed seed seed
  let c1 := PyCol.intCol yPred
  let o1 := updateA a1.obs "spagcn_pred" c1
  let c2 := astypeCat c1
  let o2 := updateA o1 "spagcn_pred" c2
  let c3 := PyCol.strCol (colStrs c2)
  let o3 := updateA o2 "spagcn_pred" c3
  let a2 : AnnDataC := { a1 with obs := o3 }
  let a3 : AnnDataC :=
    match refineShape with
    | none => a2
    | some shp =>
      let adj2d := D.calcAdjNoHist xa ya
      let refined := D.refineLabels a2.obsIndex (colStrs c3) adj2d shp
      let r1 := PyCol.strCol refined
      let ob1 := updateA a2.obs "spagcn_pred_refined" r1
      let r2 := astypeCat r1
      let ob2 := updateA ob1 "spagcn_pred_refined" r2
      { a2 with obs := ob2 }
  { adata := a3, ret := if copy then some a3 else none, adj := adj,
    lArgs := lArgs, lFound := l, lRuns := lRes.2,
    resArgs := resArgs, resFound := res, resRuns := resOut.2.1,
    resEpochs := resOut.2.2 }

/-- Embedding of `spagcn_pyg` (find_clusters.py, lines 18-174). The arguments `s` and
`b` are unconditionally reassigned to 1 and 49 (source lines 78-79) before any use. -/
def spagcnPyg (D : SpaDeps) (a : AnnDataC) (nClusters : Nat) (p : ℚ) (s b : Nat)
    (refineShape hisImgPath totalUmi xPixel yPixel xArray yArray : Option String)
    (seed : Nat) (copy : Bool) : Except PyErr SpaRun :=
  match spagcnInputs a xPixel yPixel xArray yArray with
  | Except.error e => Except.error e
  | Except.ok coords =>
    let xa := coords.1
    let ya := coords.2.1
    let xp := coords.2.2.1
    let yp := coords.2.2.2
    let s := 1
    let b := 49
    match spagcnAdj D a hisImgPath totalUmi xa ya xp yp b s with
    | Except.error e => Except.error e
    | Except.ok adj =>
      Except.ok (spagcnCore D a nClusters p refineShape seed copy xa ya adj)

theorem exists_cat_of_lookup_astype_str (l : List (String × PyCol)) (key : String)
    (vs : List String) :
    ∃ refined, (updateA l key (astypeCat (PyCol.strCol vs))).lookup key =
      some (PyCol.catStr refined) :=
  ⟨vs, by rw [lookup_updateA_self]; rfl⟩

/-- Inversion principle for a successful `spagcn_pyg` call: coordinates were
extracted, the adjacency was computed with `beta = 49` and `alpha = 1` (the
reassigned values), and the result is the pure tail applied to them. -/
theorem spagcnPyg_ok_inv (D : SpaDeps) (a : AnnDataC) (nClusters : Nat) (p : ℚ)
    (s b : Nat) (refineShape hisImgPath totalUmi xPixel yPixel xArray yArray : Option String)
    (seed : Nat) (copy : Bool) (r : SpaRun)
    (h : spagcnPyg D a nClusters p s b refineShape hisImgPath totalUmi xPixel yPixel
          xArray yArray seed copy = Except.ok r) :
    ∃ (coords : List ℚ × List ℚ × List ℚ × List ℚ) (adj : AdjM),
      spagcnInputs a xPixel yPixel xArray yArray = Except.ok coords ∧
      spagcnAdj D a hisImgPath totalUmi coords.1 coords.2.1 coords.2.2.1 coords.2.2.2
        49 1 = Except.ok adj ∧
      r = spagcnCore D a nClusters p refineShape seed copy coords.1 coords.2.1 adj := by
  unfold spagcnPyg at h
  cases hI : spagcnInputs a xPixel yPixel xArray yArray with
  | error e => simp only [hI] at h; exact Except.noConfusion h
  | ok coords =>
    simp only [hI] at h
    cases hA : spagcnAdj D a hisImgPath totalUmi coords.1 coords.2.1 coords.2.2.1
        coords.2.2.2 49 1 with
    | error e => simp only [hA] at h; exact Except.noConfusion h
    | ok adj =>
      simp only [hA, Except.ok.injEq] at h
      exact ⟨coords, adj, rfl, hA, h.symm⟩

/-- C4 (amended): every successful `spagcn_pyg` run stores the adjacency matrix used
by the searches and the training in `uns["adj_spagcn"]`; it assigns one label per
observation in `obs["spagcn_pred"]`, which ends up as a plain object-dtype column of
label strings (the intermediate `astype("category")` is overwritten by the final
assignment of the list of `str` values, so the column is not categorical); when
`refine_shape` is given, `obs["spagcn_pred_refined"]` is stored as a categorical
column; and it returns the container exactly when `copy` is true. -/
theorem c4_spagcn_outputs (D : SpaDeps) (a : AnnDataC) (nClusters : Nat) (p : ℚ)
    (s b : Nat) (refineShape hisImgPath totalUmi xPixel yPixel xArray yArray : Option String)
    (seed : Nat) (copy : Bool) (r : SpaRun)
    (hlen : ∀ ad adjm l res me s1 s2 s3,
      (D.trainPredict ad adjm l res me s1 s2 s3).length = ad.obsIndex.length)
    (h : spagcnPyg D a nClusters p s b refineShape hisImgPath totalUmi xPixel yPixel
          xArray yArray seed copy = Except.ok r) :
    r.adata.uns.lookup "adj_spagcn" = some r.adj ∧
    (∃ labels : List Int,
      labels.length = r.adata.obsIndex.length ∧
      r.adata.obs.lookup "spagcn_pred" =
        some (PyCol.strCol (labels.map (fun i => toString i)))) ∧
    (∀ c, r.adata.obs.lookup "spagcn_pred" = some c → isCategorical c = false) ∧
    (∀ shp, refineShape = some shp →
      ∃ refined : List String,
        r.adata.obs.lookup "spagcn_pred_refined" = some (PyCol.catStr refined)) ∧
    r.ret = (if copy then some r.adata else none) := by
  obtain ⟨coords, adj, hI, hA, hr⟩ := spagcnPyg_ok_inv D a nClusters p s b refineShape
    hisImgPath totalUmi xPixel yPixel xArray yArray seed copy r h
  subst hr
  cases refineShape with
  | none =>
    refine ⟨?_, ?_, ?_, ?_, rfl⟩
    · simp only [spagcnCore]
      exact lookup_updateA_self _ _ _
    · refine ⟨D.trainPredict { a with uns := updateA a.uns "adj_spagcn" adj } adj
        (searchL (D.pOfL adj) p (1 / 100) 1000 (1 / 100) 100).1
        (searchRes D { a with uns := updateA a.uns "adj_spagcn" adj } adj
          (searchL (D.pOfL adj) p (1 / 100) 1000 (1 / 100) 100).1 nClusters (7 / 10)
          (1 / 10) (1 / 200) 20 searchResMaxRun).1 200 seed seed seed, ?_, ?_⟩
      · rw [hlen]
        rfl
      · simp only [spagcnCore]
        exact lookup_updateA_self _ _ _
    · intro c hc
      simp only [spagcnCore] at hc
      rw [lookup_updateA_self] at hc
      injection hc with hc
      rw [← hc]
      rfl
    · intro shp hshp
      exact Option.noConfusion hshp
  | some shp =>
    refine ⟨?_, ?_, ?_, ?_, rfl⟩
    · simp only [spagcnCore]
      exact lookup_updateA_self _ _ _
    · refine ⟨D.trainPredict { a with uns := updateA a.uns "adj_spagcn" adj } adj
        (searchL (D.pOfL adj) p (1 / 100) 1000 (1 / 100) 100).1
        (searchRes D { a with uns := updateA a.uns "adj_spagcn" adj } adj
          (searchL (D.pOfL adj) p (1 / 100) 1000 (1 / 100) 100).1 nClusters (7 / 10)
          (1 / 10) (1 / 200) 20 searchResMaxRun).1 200 seed seed seed, ?_, ?_⟩
      · rw [hlen]
        rfl
      · simp only [spagcnCore]
        rw [lookup_updateA_other _ _ _ _ (by decide), lookup_updateA_other _ _ _ _ (by decide),
          lookup_updateA_self]
        rfl
    · intro c hc
      simp only [spagcnCore] at hc
      rw [lookup_updateA_other _ _ _ _ (by decide), lookup_updateA_other _ _ _ _ (by decide),
        lookup_updateA_self] at hc
      injection hc with hc
      rw [← hc]
      rfl
    · intro shp2 hshp
      simp only [spagcnCore]
      exact exists_cat_of_lookup_astype_str _ _ _

/-- C5: the arguments `s` (alpha) and `b` (beta) of `spagcn_pyg` have no effect
whatsoever on the outcome — both are unconditionally reassigned to 1 and 49 before
any use, so two runs differing only in `s` and/or `b` are identical. -/
theorem c5_s_b_have_no_effect (D : SpaDeps) (a : AnnDataC) (nClusters : Nat) (p : ℚ)
    (s b s2 b2 : Nat)
    (refineShape hisImgPath totalUmi xPixel yPixel xArray yArray : Option String)
    (seed : Nat) (copy : Bool) :
    spagcnPyg D a nClusters p s b refineShape hisImgPath totalUmi xPixel yPixel xArray
        yArray seed copy =
      spagcnPyg D a nClusters p s2 b2 refineShape hisImgPath totalUmi xPixel yPixel
        xArray yArray seed copy := rfl

/-- C7: on every successful `spagcn_pyg` run, the `l` search was invoked on the
interval `[0.01, 1000]` with tolerance `0.01` and at most 100 runs (and indeed used at
most 100), and the resolution search was invoked from `0.7` with step `0.1`, tolerance
`5e-3` and 20 epochs per trial (every trial ran at most 20 epochs, and the number of
trials is bounded), both searches happening before training. -/
theorem c7_search_bounds (D : SpaDeps) (a : AnnDataC) (nClusters : Nat) (p : ℚ)
    (s b : Nat) (refineShape hisImgPath totalUmi xPixel yPixel xArray yArray : Option String)
    (seed : Nat) (copy : Bool) (r : SpaRun)
    (h : spagcnPyg D a nClusters p s b refineShape hisImgPath totalUmi xPixel yPixel
          xArray yArray seed copy = Except.ok r) :
    r.lArgs = (1 / 100, 1000, 1 / 100, 100) ∧
    r.resArgs = (7 / 10, 1 / 10, 1 / 200, 20) ∧
    r.lRuns ≤ 100 ∧
    r.resRuns ≤ searchResMaxRun ∧
    (∀ e ∈ r.resEpochs, e ≤ 20) := by
  obtain ⟨coords, adj, hI, hA, hr⟩ := spagcnPyg_ok_inv D a nClusters p s b refineShape
    hisImgPath totalUmi xPixel yPixel xArray yArray seed copy r h
  subst hr
  refine ⟨rfl, rfl, ?_, ?_, ?_⟩
  · exact searchL_runs_le _ _ _ _ _ _
  · exact le_trans (searchResGo_runs_le D _ adj _ nClusters (1 / 10) 20 searchResMaxRun
      (7 / 10) 0 []) (by omega)
  · exact searchResGo_epochs_le D _ adj _ nClusters (1 / 10) 20 searchResMaxRun (7 / 10)
      0 [] (by simp)

/-- Concrete trivial SpaGCN dependencies used to evaluate the embedding: the adjacency
builders return the empty matrix, prediction labels every observation 0, refinement is
the identity on labels. -/
def trivSpaDeps : SpaDeps where
  calcAdjNoHist := fun _ _ => []
  calcAdjHist := fun _ _ _ _ _ _ _ => []
  imread := fun _ => []
  umiImage := fun _ _ _ => []
  pOfL := fun _ _ => 0
  nClustersAt := fun _ _ _ _ _ => 1
  convergeEpoch := fun _ => 0
  trainPredict := fun ad _ _ _ _ _ _ _ => ad.obsIndex.map (fun _ => 0)
  refineLabels := fun _ preds _ _ => preds

def aSp : AnnDataC := ⟨["obs0"], [], [(0, 0)], []⟩

def c4res : SpaRun :=
  spagcnCore trivSpaDeps aSp 1 1 (some "hexagon") 100 true
    (aSp.obsmSpatial.map Prod.fst) (aSp.obsmSpatial.map Prod.snd) []

theorem c4_witness :
    c4res.adata.uns.lookup "adj_spagcn" = some c4res.adj ∧
    (∃ labels : List Int,
      labels.length = c4res.adata.obsIndex.length ∧
      c4res.adata.obs.lookup "spagcn_pred" =
        some (PyCol.strCol (labels.map (fun i => toString i)))) ∧
    (∀ c, c4res.adata.obs.lookup "spagcn_pred" = some c → isCategorical c = false) ∧
    (∀ shp, (some "hexagon" : Option String) = some shp →
      ∃ refined : List String,
        c4res.adata.obs.lookup "spagcn_pred_refined" = some (PyCol.catStr refined)) ∧
    c4res.ret = (if true then some c4res.adata else none) :=
  c4_spagcn_outputs trivSpaDeps aSp 1 1 1 49 (some "hexagon") none none none none none
    none 100 true c4res
    (by intro ad adjm l res me s1 s2 s3; simp [trivSpaDeps]) (by rfl)

/-- C4 counterexample: after a successful `spagcn_pyg` run, `obs["spagcn_pred"]` is a
plain object-dtype column of label strings, not a categorical column: the
`astype("category")` intermediate is overwritten by the final assignment of the list
of `str` values. -/
theorem c4_counterexample :
    ∃ r : SpaRun,
      spagcnPyg trivSpaDeps aSp 1 1 1 49 none none none none none none none 100 false =
        Except.ok r ∧
      r.adata.obs.lookup "spagcn_pred" = some (PyCol.strCol ["0"]) ∧
      isCategorical (PyCol.strCol ["0"]) = false :=
  ⟨spagcnCore trivSpaDeps aSp 1 1 none 100 false (aSp.obsmSpatial.map Prod.fst)
      (aSp.obsmSpatial.map Prod.snd) [],
   by rfl, by rfl, rfl⟩

def c7res : SpaRun :=
  spagcnCore trivSpaDeps aSp 1 1 none 100 false
    (aSp.obsmSpatial.map Prod.fst) (aSp.obsmSpatial.map Prod.snd) []

theorem c7_witness :
    c7res.lArgs = (1 / 100, 1000, 1 / 100, 100) ∧
    c7res.resArgs = (7 / 10, 1 / 10, 1 / 200, 20) ∧
    c7res.lRuns ≤ 100 ∧
    c7res.resRuns ≤ searchResMaxRun ∧
    (∀ e ∈ c7res.resEpochs, e ≤ 20) :=
  c7_search_bounds trivSpaDeps aSp 1 1 1 49 none none none none none none none 100
    false c7res (by rfl)

/-- A CPython string object: its text and whether it is the interned object that a
source-code literal with the same text denotes. The source compares `cluster_method`
with the operator `is` (object identity), not `==`, so the distinction is observable. -/
structure PyStr where
  val : String
  interned : Bool
deriving DecidableEq

/-- CPython `x is "lit"` for a string object against an interned literal: true only
when `x` is itself the interned object for that text; an equal string built at runtime
(for instance by joining fragments) is a distinct object and compares false. -/
def pyIsLit (x : PyStr) (lit : String) : Bool := x.interned && x.val == lit

/-- The slice of the AnnData container that `scc` touches: the expression matrix, the
observation columns, the obsm embeddings and the keys of the unstructured slot. -/
structure SccAnn where
  xMat : List (List ℚ)
  obs : List (String × PyCol)
  obsm : List (String × List (List ℚ))
  unsKeys : List String
deriving DecidableEq

/-- Modelled from the spec: the helpers `scc` composes — `filter_cells` /
`filter_genes` (spateo.preprocessing.filter), dynamo's size-factor normalization,
`log1p`, `leiden` and `louvain` (which write the labels under the result key),
`compute_pca_components`, `harmony_debatch` and `spatial_adj_dyn` (cluster utils) —
none of which are part of the excerpt; abstracted as in-place state transformers over
the container. -/
structure SccDeps where
  filterCells : SccAnn → Nat → SccAnn
  filterGenes : SccAnn → Nat → SccAnn
  normalize : SccAnn → SccAnn
  log1p : SccAnn → SccAnn
  pcaComponents : List (List ℚ) → List (List ℚ) × Nat
  harmony : SccAnn → String → String → String → Nat → SccAnn
  spatialAdj : SccAnn → String → String → Nat → Nat → AdjM
  leiden : SccAnn → AdjM → Option ℚ → String → SccAnn
  louvain : SccAnn → AdjM → Option ℚ → String → SccAnn

/-- Recording `adata.uns["pp"] = {}`. -/
def addUnsKey (ks : List String) (k : String) : List String :=
  if k ∈ ks then ks else ks ++ [k]

/-- Embedding of `scc` (find_clusters.py, lines 177-263): filter cells and genes in
place, set `uns["pp"]`, normalize and log-transform, compute PCA components (the local
`pcs` is only assigned when `n_pca_components` is `None`; supplying a value makes the
subsequent `pcs[:, :n_pca_components]` raise `UnboundLocalError`), store the PCA
embedding, optionally run Harmony, build the spatial adjacency, then dispatch on
`cluster_method` with the identity operator `is` against the literals `"leiden"` and
`"louvain"` — an equal but non-identical string selects no branch and no clustering
runs. Returns the final state and (`adata` when `copy`, else `None`); the returned
object is the same mutated state, not a fresh copy. -/
def sccRun (D : SccDeps) (a : SccAnn) (minGenes minCells : Nat) (spatialKey : String)
    (keyAdded : String) (nPca : Option Nat) (eNeigh sNeigh : Nat)
    (clusterMethod : PyStr) (resolution : Option ℚ) (debatch : Bool)
    (batchKey : String) (maxIterHarmony : Nat) (copy : Bool) :
    Except PyErr (SccAnn × Option SccAnn) :=
  let a1 := D.filterCells a minGenes
  let a2 := D.filterGenes a1 minCells
  let a3 : SccAnn := { a2 with unsKeys := addUnsKey a2.unsKeys "pp" }
  let a4 := D.log1p (D.normalize a3)
  match nPca with
  | some _ => Except.error (PyErr.unboundLocal "pcs")
  | none =>
    let pr := D.pcaComponents a4.xMat
    let pcs := pr.1
    let n := pr.2
    let pcsCut := pcs.map (fun row => row.take n)
    let a5 : SccAnn := { a4 with obsm := updateA a4.obsm "X_pca" pcsCut }
    let keyState :=
      if debatch = true then
        ("X_pca_harmony", D.harmony a5 batchKey "X_pca" "X_pca_harmony" maxIterHarmony)
      else ("X_pca", a5)
    let pcaKey := keyState.1
    let a6 := keyState.2
    let adj := D.spatialAdj a6 spatialKey pcaKey eNeigh sNeigh
    let a7 :=
      if pyIsLit clusterMethod "leiden" then D.leiden a6 adj resolution keyAdded
      else if pyIsLit clusterMethod "louvain" then D.louvain a6 adj resolution keyAdded
      else a6
    Except.ok (a7, if copy then some a7 else none)

/-- C6: the dispatch `if cluster_method is "leiden"` compares object identity, not
string value: a string equal to `"leiden"` but distinct from the interned literal (for
instance one assembled at runtime) selects neither branch, so no clustering is run and
no labels are stored — the call behaves exactly like one with an unrecognized method,
for every dependency instantiation and every other argument. -/
theorem c6_is_comparison_skips_clustering :
    (PyStr.mk "leiden" false).val = "leiden" ∧
    pyIsLit (PyStr.mk "leiden" false) "leiden" = false ∧
    ∀ (D : SccDeps) (a : SccAnn) (minGenes minCells : Nat) (spatialKey keyAdded : String)
      (nPca : Option Nat) (eNeigh sNeigh : Nat) (resolution : Option ℚ) (debatch : Bool)
      (batchKey : String) (maxIterHarmony : Nat) (copy : Bool),
      sccRun D a minGenes minCells spatialKey keyAdded nPca eNeigh sNeigh
          (PyStr.mk "leiden" false) resolution debatch batchKey maxIterHarmony copy =
        sccRun D a minGenes minCells spatialKey keyAdded nPca eNeigh sNeigh
          (PyStr.mk "not-a-method" true) resolution debatch batchKey maxIterHarmony copy :=
  ⟨rfl, rfl, fun _ _ _ _ _ _ _ _ _ _ _ _ _ _ => rfl⟩

/-- C10: `scc` mutates the container in place regardless of `copy` — the final state
is the same function of the inputs for both values of `copy` — and the value returned
with `copy = True` is that very same mutated final state (not a deep copy of the
input), while `copy = False` returns `None`. -/
theorem c10_scc_in_place (D : SccDeps) (a : SccAnn) (minGenes minCells : Nat)
    (spatialKey keyAdded : String) (nPca : Option Nat) (eNeigh sNeigh : Nat)
    (clusterMethod : PyStr) (resolution : Option ℚ) (debatch : Bool)
    (batchKey : String) (maxIterHarmony : Nat) :
    (∀ copy : Bool,
      (sccRun D a minGenes minCells spatialKey keyAdded nPca eNeigh sNeigh clusterMethod
          resolution debatch batchKey maxIterHarmony copy).map Prod.fst =
        (sccRun D a minGenes minCells spatialKey keyAdded nPca eNeigh sNeigh
          clusterMethod resolution debatch batchKey maxIterHarmony false).map
          Prod.fst) ∧
    (∀ st ret,
      sccRun D a minGenes minCells spatialKey keyAdded nPca eNeigh sNeigh clusterMethod
          resolution debatch batchKey maxIterHarmony true = Except.ok (st, ret) →
      ret = some st) ∧
    (∀ st ret,
      sccRun D a minGenes minCells spatialKey keyAdded nPca eNeigh sNeigh clusterMethod
          resolution debatch batchKey maxIterHarmony false = Except.ok (st, ret) →
      ret = none) := by
  refine ⟨?_, ?_, ?_⟩
  · intro copy
    cases nPca with
    | none => cases copy <;> rfl
    | some n => cases copy <;> rfl
  · intro st ret h
    cases nPca with
    | none =>
      unfold sccRun at h
      simp only [Except.ok.injEq, Prod.mk.injEq] at h
      obtain ⟨h1, h2⟩ := h
      subst h1
      subst h2
      simp
    | some n => simp [sccRun] at h
  · intro st ret h
    cases nPca with
    | none =>
      unfold sccRun at h
      simp only [Except.ok.injEq, Prod.mk.injEq] at h
      obtain ⟨h1, h2⟩ := h
      subst h1
      subst h2
      simp
    | some n => simp [sccRun] at h

/-- Concrete trivial scc dependencies: every transformer is the identity on the state,
PCA returns the matrix itself with one component, the adjacency is empty. -/
def trivSccDeps : SccDeps where
  filterCells := fun st _ => st
  filterGenes := fun st _ => st
  normalize := fun st => st
  log1p := fun st => st
  pcaComponents := fun m => (m, 1)
  harmony := fun st _ _ _ _ => st
  spatialAdj := fun _ _ _ _ _ => []
  leiden := fun st _ _ _ => st
  louvain := fun st _ _ _ => st

def aS : SccAnn := ⟨[[1]], [], [], []⟩

def aSres : SccAnn := ⟨[[1]], [], [("X_pca", [[1]])], ["pp"]⟩

theorem c10_witness :
    (some aSres = some aSres) ∧
    sccRun trivSccDeps aS 500 100 "spatial" "leiden" none 30 6 (PyStr.mk "leiden" true)
        none false "slice" 10 true = Except.ok (aSres, some aSres) :=
  ⟨(c10_scc_in_place trivSccDeps aS 500 100 "spatial" "leiden" none 30 6
      (PyStr.mk "leiden" true) none false "slice" 10).2.1 aSres (some aSres) (by rfl),
   by rfl⟩

end Spateo
